import Mathlib

/-!
Verification of the Credit-Gated Task Orchestrator (nevermined-io/demo-mcp-ui).

Shallow embedding of the deterministic parts of the TypeScript sources:
  - a JSON value model with a parser and serializer mirroring the semantics of
    JavaScript JSON.parse / JSON.stringify as used by the code (integral
    numbers only: none of the verified payloads carry fractional numbers);
  - the llmRouter response-decoding stage (src/server/services/llmService.ts);
  - the llmIntentSynthesizer post-processing stage (same file);
  - MCP result normalization for callMcpTool / createTask / listMcpTools
    (src/server/services/paymentsService.ts);
  - the /api/llm-router credit-resolution logic (src/server/routes.ts);
  - PlanDDOHelper (plan record caching and derivations);
  - orderPlanCredits and the burn-confirmation polling loop.

External I/O (the OpenAI completion call, the MCP transport, the chain RPC and
the ledger primitives) is supplied to each model as an explicit outcome or
oracle argument, so every definition is executable and the control flow around
those calls is modelled exactly as written in the sources.
-/

/-! ## JSON value model -/

/-- JSON values as produced by JavaScript JSON.parse. Numbers are restricted
to integers: the payloads handled by the verified code never carry fractional
numbers, and the parser below rejects them explicitly. -/
inductive Json where
  | null
  | bool (b : Bool)
  | num (n : Int)
  | str (s : String)
  | arr (elems : List Json)
  | obj (fields : List (String × Json))

/-- Decimal digit to character. -/
def digitChar (n : Nat) : Char := Char.ofNat (48 + n)

/-- Fuelled decimal rendering of a natural number (most significant digit
first). Models the decimal printing JavaScript uses for integral numbers. -/
def natReprAux : Nat → Nat → List Char
  | 0, _ => []
  | fuel+1, n => if n < 10 then [digitChar n] else natReprAux fuel (n / 10) ++ [digitChar (n % 10)]

/-- Decimal rendering of a natural number. -/
def natRepr (n : Nat) : String := String.mk (natReprAux (n+1) n)

/-- Decimal rendering of an integer, as JavaScript prints integral numbers. -/
def intRepr (n : Int) : String := if n < 0 then "-" ++ natRepr n.natAbs else natRepr n.toNat

/-- Hexadecimal digit to character (lowercase). -/
def hexDigitChar (n : Nat) : Char := if n < 10 then digitChar n else Char.ofNat (87 + n)

/-- Escape one character the way JSON.stringify escapes characters inside a
string literal. -/
def escapeJsonChar (c : Char) : List Char :=
  if c == '"' then ['\\', '"']
  else if c == '\\' then ['\\', '\\']
  else if c == '\n' then ['\\', 'n']
  else if c == '\r' then ['\\', 'r']
  else if c == '\t' then ['\\', 't']
  else if c == Char.ofNat 8 then ['\\', 'b']
  else if c == Char.ofNat 12 then ['\\', 'f']
  else if c.toNat < 32 then
    ['\\', 'u', '0', '0', hexDigitChar (c.toNat / 16), hexDigitChar (c.toNat % 16)]
  else [c]

/-- Quote a string as a JSON string literal, as JSON.stringify does. -/
def quoteJson (s : String) : String :=
  String.mk ('"' :: s.data.foldr (fun c acc => escapeJsonChar c ++ acc) ['"'])

mutual

/-- Serialization of a JSON value, mirroring JavaScript
JSON.stringify(value) with no spacing argument. -/
def Json.stringify : Json → String
  | .null => "null"
  | .bool true => "true"
  | .bool false => "false"
  | .num n => intRepr n
  | .str s => quoteJson s
  | .arr xs => "[" ++ Json.stringifyElems xs ++ "]"
  | .obj fs => "\x7b" ++ Json.stringifyFields fs ++ "\x7d"

/-- Comma-separated serialization of array elements. -/
def Json.stringifyElems : List Json → String
  | [] => ""
  | [x] => Json.stringify x
  | x :: y :: rest => Json.stringify x ++ "," ++ Json.stringifyElems (y :: rest)

/-- Comma-separated serialization of object fields in insertion order. -/
def Json.stringifyFields : List (String × Json) → String
  | [] => ""
  | [(k, v)] => quoteJson k ++ ":" ++ Json.stringify v
  | (k, v) :: p :: rest =>
    quoteJson k ++ ":" ++ Json.stringify v ++ "," ++ Json.stringifyFields (p :: rest)

end

/-- Field lookup on a JSON object's field list: JavaScript property access
`o.k` (the field list never holds duplicate keys, see `setField`). -/
def getField? (fs : List (String × Json)) (k : String) : Option Json :=
  match fs.find? (fun kv => kv.1 == k) with
  | some kv => some kv.2
  | none => none

/-- Insert or overwrite a field, keeping the original insertion position on
overwrite — exactly how JavaScript object assignment treats duplicate keys
while JSON.parse builds an object. -/
def setField (fs : List (String × Json)) (k : String) (v : Json) : List (String × Json) :=
  match fs with
  | [] => [(k, v)]
  | (k0, v0) :: rest => if k0 == k then (k, v) :: rest else (k0, v0) :: setField rest k v

/-- The four whitespace characters JSON.parse skips. -/
def isJsonWs (c : Char) : Bool := c == ' ' || c == '\t' || c == '\n' || c == '\r'

/-- Hex digit value of a character, if it is one. -/
def parseHexDigit? (c : Char) : Option Nat :=
  if '0' ≤ c ∧ c ≤ '9' then some (c.toNat - 48)
  else if 'a' ≤ c ∧ c ≤ 'f' then some (c.toNat - 87)
  else if 'A' ≤ c ∧ c ≤ 'F' then some (c.toNat - 55)
  else none

/-- Body of a JSON string literal, after the opening quote. Accumulates
characters in reverse; handles the escape sequences JSON.parse accepts and
rejects raw control characters, as JSON.parse does. -/
def parseStringBody : Nat → List Char → List Char → Except String (String × List Char)
  | 0, _, _ => .error "string: out of fuel"
  | fuel+1, acc, cs =>
    match cs with
    | [] => .error "unterminated string"
    | c :: rest =>
      if c == '"' then .ok (String.mk acc.reverse, rest)
      else if c == '\\' then
        match rest with
        | [] => .error "bad escape"
        | e :: rest2 =>
          if e == '"' then parseStringBody fuel ('"' :: acc) rest2
          else if e == '\\' then parseStringBody fuel ('\\' :: acc) rest2
          else if e == '/' then parseStringBody fuel ('/' :: acc) rest2
          else if e == 'n' then parseStringBody fuel ('\n' :: acc) rest2
          else if e == 't' then parseStringBody fuel ('\t' :: acc) rest2
          else if e == 'r' then parseStringBody fuel ('\r' :: acc) rest2
          else if e == 'b' then parseStringBody fuel (Char.ofNat 8 :: acc) rest2
          else if e == 'f' then parseStringBody fuel (Char.ofNat 12 :: acc) rest2
          else if e == 'u' then
            match rest2 with
            | a :: b :: c2 :: d :: rest3 =>
              match parseHexDigit? a, parseHexDigit? b, parseHexDigit? c2, parseHexDigit? d with
              | some ha, some hb, some hc, some hd =>
                parseStringBody fuel
                  (Char.ofNat (((ha * 16 + hb) * 16 + hc) * 16 + hd) :: acc) rest3
              | _, _, _, _ => .error "bad unicode escape"
            | _ => .error "bad unicode escape"
          else .error "bad escape"
      else if c.toNat < 32 then .error "control character in string"
      else parseStringBody fuel (c :: acc) rest

/-- Numeric value of a digit list. -/
def digitsToNat (ds : List Char) : Nat := ds.foldl (fun a c => a * 10 + (c.toNat - 48)) 0

/-- JSON number literal. Accepts the integral numbers JSON.parse accepts
(optional minus, no leading zeros); fractional and exponent forms are outside
this model's scope and are rejected. -/
def parseNumber (cs : List Char) : Except String (Json × List Char) :=
  let neg := match cs with | c :: _ => c == '-' | [] => false
  let cs1 := if neg then cs.tail else cs
  let ds := cs1.takeWhile (fun c => c.isDigit)
  let rest := cs1.dropWhile (fun c => c.isDigit)
  if ds.isEmpty then .error "invalid number"
  else if ds.length > 1 && ds.headD '0' == '0' then .error "number with leading zero"
  else
    match rest with
    | c :: _ =>
      if c == '.' || c == 'e' || c == 'E' then .error "non-integral number outside model scope"
      else
        .ok (.num (if neg then -(digitsToNat ds : Int) else (digitsToNat ds : Int)), rest)
    | [] => .ok (.num (if neg then -(digitsToNat ds : Int) else (digitsToNat ds : Int)), rest)

/-- Match a keyword tail such as "ull" after an initial 'n'. -/
def expectKeyword (kw : List Char) (cs : List Char) (v : Json) : Except String (Json × List Char) :=
  if cs.take kw.length == kw then .ok (v, cs.drop kw.length) else .error "invalid literal"

mutual

/-- Fuelled JSON value parser over a character list, mirroring JSON.parse. -/
def parseValue : Nat → List Char → Except String (Json × List Char)
  | 0, _ => .error "out of fuel"
  | fuel+1, cs0 =>
    let cs := cs0.dropWhile isJsonWs
    match cs with
    | [] => .error "unexpected end of input"
    | c :: rest =>
      if c == 'n' then expectKeyword ['u', 'l', 'l'] rest .null
      else if c == 't' then expectKeyword ['r', 'u', 'e'] rest (.bool true)
      else if c == 'f' then expectKeyword ['a', 'l', 's', 'e'] rest (.bool false)
      else if c == '"' then
        match parseStringBody (rest.length + 1) [] rest with
        | .ok (s, r) => .ok (.str s, r)
        | .error e => .error e
      else if c == '[' then parseArrayRest fuel rest []
      else if c == '\x7b' then parseObjectRest fuel rest []
      else parseNumber cs

/-- Elements of a JSON array after the opening bracket (or after a comma). -/
def parseArrayRest : Nat → List Char → List Json → Except String (Json × List Char)
  | 0, _, _ => .error "out of fuel"
  | fuel+1, cs0, acc =>
    let cs := cs0.dropWhile isJsonWs
    match cs with
    | ']' :: rest =>
      if acc.isEmpty then .ok (.arr [], rest) else .error "unexpected end of array"
    | _ =>
      match parseValue fuel cs with
      | .error e => .error e
      | .ok (v, r) =>
        let r1 := r.dropWhile isJsonWs
        match r1 with
        | ',' :: r2 => parseArrayRestAfterComma fuel r2 (acc ++ [v])
        | ']' :: r2 => .ok (.arr (acc ++ [v]), r2)
        | _ => .error "expected comma or end of array"

/-- After a comma inside an array a further value is mandatory. -/
def parseArrayRestAfterComma : Nat → List Char → List Json → Except String (Json × List Char)
  | 0, _, _ => .error "out of fuel"
  | fuel+1, cs, acc =>
    match parseValue fuel cs with
    | .error e => .error e
    | .ok (v, r) =>
      let r1 := r.dropWhile isJsonWs
      match r1 with
      | ',' :: r2 => parseArrayRestAfterComma fuel r2 (acc ++ [v])
      | ']' :: r2 => .ok (.arr (acc ++ [v]), r2)
      | _ => .error "expected comma or end of array"

/-- Members of a JSON object after the opening brace (or after a comma).
Duplicate keys overwrite in place, as JSON.parse does. -/
def parseObjectRest : Nat → List Char → List (String × Json) → Except String (Json × List Char)
  | 0, _, _ => .error "out of fuel"
  | fuel+1, cs0, acc =>
    let cs := cs0.dropWhile isJsonWs
    match cs with
    | '\x7d' :: rest =>
      if acc.isEmpty then .ok (.obj [], rest) else .error "unexpected end of object"
    | _ => parseMember fuel cs acc

/-- One key-value member followed by a comma or the closing brace. -/
def parseMember : Nat → List Char → List (String × Json) → Except String (Json × List Char)
  | 0, _, _ => .error "out of fuel"
  | fuel+1, cs, acc =>
    match cs with
    | '"' :: rest =>
      match parseStringBody (rest.length + 1) [] rest with
      | .error e => .error e
      | .ok (k, r) =>
        let r1 := r.dropWhile isJsonWs
        match r1 with
        | ':' :: r2 =>
          match parseValue fuel r2 with
          | .error e => .error e
          | .ok (v, r3) =>
            let r4 := r3.dropWhile isJsonWs
            match r4 with
            | ',' :: r5 => parseMember fuel (r5.dropWhile isJsonWs) (setField acc k v)
            | '\x7d' :: r5 => .ok (.obj (setField acc k v), r5)
            | _ => .error "expected comma or end of object"
        | _ => .error "expected colon"
    | _ => .error "expected string key"

end

/-- JSON.parse on a string: parse one value and require that only whitespace
remains, as JSON.parse does. -/
def Json.parse (s : String) : Except String Json :=
  match parseValue (2 * s.length + 8) s.data with
  | .ok (v, rest) =>
    if (rest.dropWhile isJsonWs).isEmpty then .ok v else .error "unexpected trailing characters"
  | .error e => .error e

example : Json.parse ("\x7b\"action\":\"no_credit\"\x7d") = .ok (.obj [("action", .str "no_credit")]) := by rfl
example : Json.parse ("  [1, true, null] ") = .ok (.arr [.num 1, .bool true, .null]) := by rfl
example : (Json.parse ("hola \x7b\"a\":1\x7d")).isOk = false := by rfl
example : Json.stringify (.obj [("content", .arr [.obj [("type", .str "text")]])])
    = "\x7b\"content\":[\x7b\"type\":\"text\"\x7d]\x7d" := by rfl

/-! ## Router response decoding (llmService.ts, llmRouter)

The code takes the completion text (already trimmed), tries JSON.parse, and on
failure extracts text.match(/\x7b[\s\S]*\x7d/) — the substring from the first
left brace to the last right brace — and parses that; if the regex has no
match it throws "LLM did not return valid JSON", and if the extracted slice is
not valid JSON the JSON.parse exception propagates. -/

/-- Left brace character. -/
def lbrace : Char := Char.ofNat 123

/-- Right brace character. -/
def rbrace : Char := Char.ofNat 125

/-- Semantics of text.match(/\x7b[\s\S]*\x7d/) on a character list: the match,
when it exists, runs from the first left brace to the last right brace. -/
def regexBraceMatch (l : List Char) : Option (List Char) :=
  let t := l.dropWhile (fun c => !(c == lbrace))
  let u := (t.reverse.dropWhile (fun c => !(c == rbrace))).reverse
  if u.isEmpty then none else some u

/-- String-level wrapper of `regexBraceMatch`. -/
def braceSlice? (s : String) : Option String :=
  (regexBraceMatch s.data).map String.mk

/-- Decoding stage of llmRouter: the completion text is parsed with
JSON.parse; on failure the greedy brace slice is parsed; with no slice the
call throws. Mirrors llmService.ts lines 448-459. -/
def llmRouter (text : String) : Except String Json :=
  match Json.parse text with
  | .ok j => .ok j
  | .error _ =>
    match braceSlice? text with
    | some sub =>
      match Json.parse sub with
      | .ok j => .ok j
      | .error e => .error e
    | none => .error "LLM did not return valid JSON"

/-! ## MCP result normalization (paymentsService.ts) -/

/-- JavaScript truthiness of the check
`c && typeof c === "object" && c.type === "text"` applied to a decoded JSON
content block: only objects carry a `type` property, and null is falsy. -/
def isTextBlock (c : Json) : Bool :=
  match c with
  | .obj fs =>
    match getField? fs "type" with
    | some (.str t) => t == "text"
    | _ => false
  | _ => false

/-- Normalization shared by callMcpTool (lines 227-241) and createTask (lines
134-150): take the text of the first text-typed content block, coercing a
non-string payload through JSON.stringify; when that leaves the output empty
(no content array, no text block, absent text field, or empty text), fall back
to the response itself if it is a string and to its JSON serialization
otherwise. -/
def mcpOutputText (result : Json) : String :=
  let fromBlock :=
    match result with
    | .obj fs =>
      match getField? fs "content" with
      | some (.arr blocks) =>
        match blocks.find? isTextBlock with
        | some tb =>
          match tb with
          | .obj tfs =>
            match getField? tfs "text" with
            | some (.str s) => s
            | some v => Json.stringify v
            | none => ""
          | _ => ""
        | none => ""
      | _ => ""
    | _ => ""
  if fromBlock == "" then
    match result with
    | .str s => s
    | _ => Json.stringify result
  else fromBlock

/-- Normalized result of callMcpTool: the output text together with the raw
content field (`result?.content`). -/
def callMcpToolResult (result : Json) : String × Option Json :=
  (mcpOutputText result,
    match result with
    | .obj fs => getField? fs "content"
    | _ => none)

/-- callMcpTool over the transport outcome: the MCP connect/call either
produces a response or throws; callMcpTool has no catch block (its `finally`
only closes the session), so a transport error propagates to the caller. -/
def callMcpTool (outcome : Except String Json) : Except String (String × Option Json) :=
  match outcome with
  | .ok result => .ok (callMcpToolResult result)
  | .error e => .error e

/-- Input accepted by createTask: a plain text intent or an explicit tool
payload (`typeof input.tool === "string"`; a missing args field defaults to
the empty object via `input.args || \x7b\x7d`). -/
inductive TaskInput where
  | text (s : String)
  | toolCall (tool : String) (args : Option (List (String × Json)))

/-- Environment configuration read by createTask's tool dispatch. An env
variable is a JavaScript string or undefined; `some ""` is falsy. -/
structure McpEnv where
  mcpTool : Option String
  raw : Option String

/-- JavaScript truthiness of an optional env string. -/
def envTruthy : Option String → Bool
  | some s => !(s == "")
  | none => false

/-- Tool-and-arguments dispatch of createTask (paymentsService.ts lines
108-127): an explicit tool payload is used directly; otherwise the default
tool is MCP_TOOL when set, else "weather.today.raw" when RAW is set, else
"weather.today", and a non-empty input text becomes the single argument
`city`. -/
def createTaskDispatch (env : McpEnv) (input : TaskInput) : String × List (String × Json) :=
  match input with
  | .toolCall tool args => (tool, args.getD [])
  | .text s =>
    let toolName :=
      match env.mcpTool with
      | some t => if t == "" then (if envTruthy env.raw then "weather.today.raw" else "weather.today") else t
      | none => if envTruthy env.raw then "weather.today.raw" else "weather.today"
    let toolArgs : List (String × Json) := if s == "" then [] else [("city", .str s)]
    (toolName, toolArgs)

/-- Result shape returned by createTask. -/
structure TaskResult where
  output : String
deriving DecidableEq

/-- createTask over the transport outcome (paymentsService.ts lines 105-165):
a successful MCP call is normalized like callMcpTool; any thrown error is
caught and turned into the sentinel result with output "Error creating task",
of the same shape as a success. -/
def createTask (outcome : Except String Json) : TaskResult :=
  match outcome with
  | .ok result => { output := mcpOutputText result }
  | .error _ => { output := "Error creating task" }

/-- listMcpTools over the transport outcome (paymentsService.ts lines
172-195): a success returns the listing as-is, and any thrown error is caught
and turned into the empty array — the same shape a catalog response has. -/
def listMcpTools (outcome : Except String Json) : Json :=
  match outcome with
  | .ok tools => tools
  | .error _ => .arr []

/-! ## Intent synthesizer post-processing (llmService.ts, llmIntentSynthesizer) -/

/-- Outcome of the synthesizer: a natural-language sentence or a structured
tool call. -/
inductive SynthOut where
  | text (s : String)
  | toolCall (tool : String) (args : Json)

/-- JavaScript `typeof x === "object"`: objects, arrays and null. -/
def typeofIsObject : Json → Bool
  | .obj _ => true
  | .arr _ => true
  | .null => true
  | _ => false

/-- Post-processing stage of llmIntentSynthesizer (llmService.ts lines
531-541): with a tool catalog the completion text is JSON-parsed and, when the
result is a truthy object with a string `tool` and an object-typed `args`, the
structured call is returned; in every other case — parse failure included —
the raw completion text is returned unchanged (the silent fall-through). -/
def llmIntentSynthesizer (hasCatalog : Bool) (text : String) : SynthOut :=
  if hasCatalog then
    match Json.parse text with
    | .ok (.obj fs) =>
      match getField? fs "tool" with
      | some (.str t) =>
        match getField? fs "args" with
        | some a => if typeofIsObject a then .toolCall t a else .text text
        | none => .text text
      | _ => .text text
    | _ => .text text
  else .text text

/-! ## Route credit resolution (routes.ts, POST /api/llm-router) -/

/-- Outcome of the /api/llm-router handler before the completion call: either
a 400 for a non-string message, or the router invoked with a resolved credit
count. -/
inductive RouteOutcome where
  | badRequest
  | routed (credits : Nat)
deriving DecidableEq

/-- Whitespace trimming at both ends, modelling String.prototype.trim on the
ASCII whitespace the credentials can carry. -/
def jsTrim (s : String) : String :=
  String.mk (((s.data.dropWhile isJsonWs).reverse.dropWhile isJsonWs).reverse)

/-- Prefix test at the character level, modelling
`authHeader.startsWith("Bearer ")`. -/
def startsWithBearer (h : String) : Bool :=
  List.isPrefixOf ("Bearer ".data) h.data

/-- Credit resolution of the /api/llm-router handler (routes.ts lines 80-92):
credits default to 0; with a Bearer authorization header the key is the header
with its first "Bearer " occurrence removed (which, under the prefix check, is
dropping the first 7 characters) and trimmed, and when the key is non-empty
the ledger lookup runs inside try/catch with a failure degrading to 0 rather
than propagating. -/
def resolveCredits (auth : Option String) (lookup : String → Except String Nat) : Nat :=
  match auth with
  | none => 0
  | some h =>
    if startsWithBearer h then
      let key := jsTrim (String.mk (h.data.drop 7))
      if key == "" then 0
      else
        match lookup key with
        | .ok c => c
        | .error _ => 0
    else 0

/-- The /api/llm-router handler up to the router invocation (routes.ts lines
74-94): a non-string message is rejected with 400; otherwise the router is
always invoked, with the credits from `resolveCredits`. -/
def llmRouterRoute (message : Option String) (auth : Option String)
    (lookup : String → Except String Nat) : RouteOutcome :=
  match message with
  | none => .badRequest
  | some _ => .routed (resolveCredits auth lookup)

/-! ## Plan descriptor (DDO) and PlanDDOHelper (planDDOHelper.ts) -/

/-- Price section of a plan DDO (`ddo.registry.price`), with each property
optional as in the untyped JavaScript object. -/
structure PlanPriceSection where
  amounts : Option (List Nat)
  tokenAddress : Option String

/-- Credits section of a plan DDO (`ddo.registry.credits`). -/
structure PlanCreditsSection where
  amount : Option Nat
  nftAddress : Option String

/-- Registry section of a plan DDO (`ddo.registry`). -/
structure PlanRegistry where
  price : Option PlanPriceSection
  credits : Option PlanCreditsSection

/-- A plan DDO as accessed by the code (all access is optional-chained). -/
structure PlanDDO where
  registry : Option PlanRegistry

/-- The designated stablecoin address hard-coded in PlanDDOHelper. -/
def usdcAddress : String := "0x036CbD53842c5426634e7929541eC2318f3dCF7e"

/-- The `ddo?.registry?.price` optional chain. -/
def ddoPrice (ddo : PlanDDO) : Option PlanPriceSection := ddo.registry.bind (·.price)

/-- The `ddo?.registry?.credits` optional chain. -/
def ddoCredits (ddo : PlanDDO) : Option PlanCreditsSection := ddo.registry.bind (·.credits)

/-- Fuelled floor base-2 logarithm (the fuel n covers every halving chain
starting from n). -/
def log2Aux : Nat → Nat → Nat
  | 0, _ => 0
  | fuel + 1, n => if n < 2 then 0 else log2Aux fuel (n / 2) + 1

/-- Floor base-2 logarithm, structurally recursive so concrete values reduce
in the kernel. -/
def natLog2 (n : Nat) : Nat := log2Aux n n

/-- Nearest IEEE 754 binary64 value of a natural number, ties to even: the
value a JavaScript number holds after `Number(n)` or after an addition whose
exact result is n. Integers below 2^53 are exact; above, n is rounded to the
nearest multiple of the unit in the last place 2^(floor(log2 n) - 52).
(Overflow to Infinity near 1.8e308 is far beyond any value these models
reach and is not modelled.) -/
def roundToDouble (n : Nat) : Nat :=
  if n < 2 ^ 53 then n
  else
    let u := 2 ^ (natLog2 n - 52)
    let q := n / u
    let r := n % u
    if 2 * r < u then q * u
    else if 2 * r > u then (q + 1) * u
    else if q % 2 = 0 then q * u else (q + 1) * u

/-- One JavaScript double addition of two representable integer values: the
exact sum rounded to the nearest double. -/
def jsAdd (a b : Nat) : Nat := roundToDouble (a + b)

/-- The source's `amounts.reduce((acc, curr) => Number(acc) + Number(curr),
0)` computed in JavaScript doubles: each component is converted to a double
and accumulated with double addition. -/
def jsReduceAmounts (l : List Nat) : Nat :=
  l.foldl (fun acc x => jsAdd acc (roundToDouble x)) 0

/-- Raw price sum: `ddo?.registry?.price?.amounts?.reduce((acc, curr) =>
Number(acc) + Number(curr), 0)`, with the reduce performed in doubles. -/
def ddoPriceSum (ddo : PlanDDO) : Option Nat :=
  ((ddoPrice ddo).bind (·.amounts)).map jsReduceAmounts

/-- Admissibility of a scaled decimal candidate 4d = x4 inside the rounding
interval (lo4, hi4) of a double, endpoints included exactly when the double's
mantissa is even (ties round to even). -/
def admissible (tiesOk : Bool) (lo4 hi4 x4 : Nat) : Bool :=
  (decide (lo4 < x4) || (tiesOk && decide (lo4 = x4))) &&
  (decide (x4 < hi4) || (tiesOk && decide (x4 = hi4)))

/-- Smallest multiple of p whose quadruple lies in the rounding interval, if
any (the floor candidate works only as an admitted tie; otherwise the next
multiple is the least one above the lower bound). -/
def smallestMultipleIn (p lo4 hi4 : Nat) (tiesOk : Bool) : Option Nat :=
  let q := lo4 / (4 * p)
  if admissible tiesOk lo4 hi4 (4 * q * p) then some q
  else if admissible tiesOk lo4 hi4 (4 * (q + 1) * p) then some (q + 1)
  else none

/-- Largest power-of-ten step j ≤ jmax admitting a decimal candidate in the
rounding interval: the fewest significant digits a round-tripping decimal for
this double can have. -/
def maxAdmissibleJ (lo4 hi4 : Nat) (tiesOk : Bool) : Nat → Nat
  | 0 => 0
  | j + 1 =>
    if (smallestMultipleIn (10 ^ (j + 1)) lo4 hi4 tiesOk).isSome then j + 1
    else maxAdmissibleJ lo4 hi4 tiesOk j

/-- Among the admissible multiples of p (an integer interval), the one whose
value m * p is closest to n, ties resolved to the even multiple — the digit
choice Number::toString makes among shortest candidates. -/
def pickClosest (n p mLow mHigh : Nat) : Nat :=
  let clamp : Nat → Nat := fun m => if m < mLow then mLow else if m > mHigh then mHigh else m
  let c0 := clamp (n / p)
  let c1 := clamp (n / p + 1)
  let d0 := if n ≥ c0 * p then n - c0 * p else c0 * p - n
  let d1 := if n ≥ c1 * p then n - c1 * p else c1 * p - n
  if d0 < d1 then c0
  else if d1 < d0 then c1
  else if c0 % 2 = 0 then c0 else c1

/-- Exponential-notation rendering Number::toString uses for values at or
above 10^21, for a representable integer double n: the shortest decimal
s × 10^(nDec - k) that rounds back to n, closest to n and with an even last
digit on ties, printed as "d.ddd…e+E". The rounding interval runs from the
midpoint with the lower representable neighbour (half a unit below, or a
quarter at a power-of-two binade boundary) to the midpoint with the upper
one, scaled by 4 to stay in integers. -/
def expNotation (n : Nat) : String :=
  let e := natLog2 n
  let u := 2 ^ (e - 52)
  let ug := if n = 2 ^ e then u / 2 else u
  let tiesOk := decide ((n / u) % 2 = 0)
  let lo4 := 4 * n - 2 * ug
  let hi4 := 4 * n + 2 * u
  let len := (natReprAux (n + 1) n).length
  let j := maxAdmissibleJ lo4 hi4 tiesOk len
  let p := 10 ^ j
  let mLow := (smallestMultipleIn p lo4 hi4 tiesOk).getD (n / p)
  let qHi := hi4 / (4 * p)
  let mHigh := if admissible tiesOk lo4 hi4 (4 * qHi * p) then qHi else qHi - 1
  let s := pickClosest n p mLow mHigh
  let ds := natReprAux (s + 1) s
  let nDec := j + ds.length
  match ds with
  | [] => ""
  | d0 :: rest =>
    String.mk [d0] ++ (if rest.isEmpty then "" else "." ++ String.mk rest)
      ++ "e+" ++ natRepr (nDec - 1)

/-- Number::toString on an integer-valued number: round the integer to its
double value; below 10^21 JavaScript prints the exact decimal digits, at or
above it the shortest-round-trip exponential notation. -/
def jsNumToString (n : Nat) : String :=
  let r := roundToDouble n
  if r < 10 ^ 21 then natRepr r else expNotation r

/-- Exact decimal rendering of n / 10^6 (integer part, then the fractional
digits with trailing zeros stripped). This equals what the source's double
division followed by Number::toString prints whenever n ≤ 10^15: the
quotient then has at most 15 significant digits, every such decimal is the
shortest round-trip form of its nearest double, and the value stays far below
the 10^21 exponential-notation threshold. The C3 theorem carries exactly that
bound; beyond it the double division may round and this rendering diverges
from the code. -/
def divMillionRepr (n : Nat) : String :=
  let ip := n / 1000000
  let fp := n % 1000000
  if fp = 0 then natRepr ip
  else
    let digits := natReprAux (fp + 1) fp
    let padded := List.replicate (6 - digits.length) '0' ++ digits
    natRepr ip ++ "." ++ String.mk (padded.reverse.dropWhile (fun c => c == '0')).reverse

/-- PlanDDOHelper.getPlanPrice derivation (planDDOHelper.ts lines 410-419):
the raw amounts are summed with the double-precision reduce; when the
settlement token is the designated stablecoin the sum is divided by 10^6 and
rendered (the weiPrice string round-trips to the sum's double, so the
division acts on the reduced sum; rendering per `divMillionRepr`, faithful up
to 10^15), otherwise the sum double is printed by Number::toString. A missing
amounts chain yields undefined — or the string "NaN" on the stablecoin
branch, where JavaScript divides undefined. -/
def getPlanPriceOfDDO (ddo : PlanDDO) : Option String :=
  let tokenAddr := (ddoPrice ddo).bind (·.tokenAddress)
  match ddoPriceSum ddo with
  | some sum =>
    if tokenAddr == some usdcAddress then some (divMillionRepr sum)
    else some (jsNumToString sum)
  | none =>
    if tokenAddr == some usdcAddress then some ("NaN") else none

example : roundToDouble (2 ^ 53 + 1) = 2 ^ 53 := by rfl
example : roundToDouble (2 ^ 53 + 3) = 2 ^ 53 + 4 := by rfl
example : jsNumToString (10 ^ 21) = "1e+21" := by rfl
example : jsNumToString (2 ^ 70) = "1.1805916207174113e+21" := by rfl
example : jsReduceAmounts [9007199254740992, 1] = 9007199254740992 := by rfl

/-- PlanDDOHelper.getPlanCredits derivation: `ddo?.registry?.credits?.amount
|| 0`. -/
def getPlanCreditsOfDDO (ddo : PlanDDO) : Nat :=
  ((ddoCredits ddo).bind (·.amount)).getD 0

/-- PlanDDOHelper.getTokenAddress derivation:
`ddo?.registry?.price?.tokenAddress`. -/
def getTokenAddressOfDDO (ddo : PlanDDO) : Option String :=
  (ddoPrice ddo).bind (·.tokenAddress)

/-- PlanDDOHelper.get1155ContractAddress derivation:
`ddo?.registry?.credits?.nftAddress`. -/
def getNftAddressOfDDO (ddo : PlanDDO) : Option String :=
  (ddoCredits ddo).bind (·.nftAddress)

/-- Mutable state of one PlanDDOHelper instance: the plan id and the cached
DDO (`undefined` until loaded; `none` also covers a falsy fetch result, which
the cache check `if (!this.ddo)` treats as absent). -/
structure PlanDDOHelperState where
  planId : String
  ddo : Option PlanDDO

namespace PlanDDOHelper

/-- Result triple of one helper operation: updated state, returned value, and
the number of remote `payments.plans.getPlan` fetches performed. -/
def OpResult (α : Type) := PlanDDOHelperState × α × Nat

/-- loadDDO (planDDOHelper.ts lines 390-395): fetch the DDO only when the
cache is empty, then return the cached record. `fetch` is the remote
`payments.plans.getPlan` call, returning the DDO or a falsy value. -/
def loadDDO (fetch : Unit → Option PlanDDO) (st : PlanDDOHelperState) :
    OpResult (Option PlanDDO) :=
  match st.ddo with
  | some d => (st, some d, 0)
  | none =>
    let r := fetch ()
    ({ st with ddo := r }, r, 1)

/-- getTokenAddress: loadDDO then read the token address chain. -/
def getTokenAddress (fetch : Unit → Option PlanDDO) (st : PlanDDOHelperState) :
    OpResult (Option String) :=
  let (st', d, n) := loadDDO fetch st
  (st', d.bind getTokenAddressOfDDO, n)

/-- getPlanPrice: loadDDO then derive the normalized price. -/
def getPlanPrice (fetch : Unit → Option PlanDDO) (st : PlanDDOHelperState) :
    OpResult (Option String) :=
  let (st', d, n) := loadDDO fetch st
  (st', d.bind getPlanPriceOfDDO, n)

/-- getPlanCredits: loadDDO then derive the credit grant (0 when absent). -/
def getPlanCredits (fetch : Unit → Option PlanDDO) (st : PlanDDOHelperState) :
    OpResult Nat :=
  let (st', d, n) := loadDDO fetch st
  (st', (d.map getPlanCreditsOfDDO).getD 0, n)

/-- getTokenId (planDDOHelper.ts lines 443-445): returns the plan id without
touching the DDO at all. -/
def getTokenId (st : PlanDDOHelperState) : OpResult String :=
  (st, st.planId, 0)

/-- get1155ContractAddress: loadDDO then read the NFT contract address. -/
def get1155ContractAddress (fetch : Unit → Option PlanDDO) (st : PlanDDOHelperState) :
    OpResult (Option String) :=
  let (st', d, n) := loadDDO fetch st
  (st', d.bind getNftAddressOfDDO, n)

end PlanDDOHelper

/-- getPlanCost (paymentsService.ts lines 406-421): load the DDO once and
return the normalized plan price together with the credit grant. Stated over
the successfully loaded DDO. -/
def getPlanCost (ddo : PlanDDO) : Option String × Nat :=
  (getPlanPriceOfDDO ddo, getPlanCreditsOfDDO ddo)

/-! ## orderPlanCredits (paymentsService.ts lines 257-335) -/

/-- Modelled from the spec: `hasSufficientERC20Balance` lives in
blockchainService.ts, which is not among the sources; per spec section 4.4
step 3 it verifies that the wallet holds sufficient balance of the settlement
token to cover the price, so it holds exactly when price ≤ balance (both in
the same settlement-token units). -/
def hasSufficientERC20Balance (balance price : Nat) : Bool :=
  decide (price ≤ balance)

/-- A chain transfer event as consumed by the code. -/
structure ChainEvent where
  txHash : String
  value : String

/-- Outcome of the `payments.plans.orderPlan` purchase primitive: it either
throws (with an optional error message) or returns a success flag. -/
inductive PurchaseOutcome where
  | threw (msg : Option String)
  | returned (success : Bool)

/-- Result shape of orderPlanCredits. -/
structure OrderResult where
  success : Bool
  txHash : Option String
  credits : Option String
  message : String
deriving DecidableEq

/-- Inputs of one orderPlanCredits run that come from outside the function:
the DDO-derived token address, the resolved wallet (the code turns a missing
address into ""), the wallet's settlement-token balance, the plan price in the
same units, the purchase outcome and the same-pass mint event lookup. -/
structure OrderEnv where
  tokenAddress : Option String
  wallet : String
  walletTokenBalance : Nat
  planPrice : Nat
  purchase : PurchaseOutcome
  mintEvent : Option ChainEvent

/-- orderPlanCredits control flow. The second component records whether the
purchase primitive `payments.plans.orderPlan` was invoked. Guards appear in
source order: token address, wallet, pre-flight balance check, purchase,
mint-event lookup. -/
def orderPlanCredits (env : OrderEnv) : OrderResult × Bool :=
  match env.tokenAddress with
  | none => ({ success := false, txHash := none, credits := none,
               message := "Token address not found in plan DDO" }, false)
  | some _ =>
    if env.wallet == "" then
      ({ success := false, txHash := none, credits := none,
         message := "Wallet address not found" }, false)
    else if !hasSufficientERC20Balance env.walletTokenBalance env.planPrice then
      ({ success := false, txHash := none, credits := none,
         message := "Insufficient USDC balance to purchase credits" }, false)
    else
      match env.purchase with
      | .threw msg =>
        ({ success := false, txHash := none, credits := none,
           message := msg.getD "Failed to order credits for plan" }, true)
      | .returned false =>
        ({ success := false, txHash := none, credits := none,
           message := "Failed to order credits for plan" }, true)
      | .returned true =>
        match env.mintEvent with
        | some ev =>
          ({ success := true, txHash := some ev.txHash, credits := some ev.value,
             message := "Credits purchased and added to your balance. (tx: " ++ ev.txHash ++ ")" }, true)
        | none =>
          ({ success := true, txHash := none, credits := none,
             message := "Credits purchased and added to your balance." }, true)

/-! ## Burn-confirmation polling (paymentsService.ts lines 361-385) -/

/-- The fixed delay between consecutive polling attempts, in milliseconds. -/
def burnPollDelayMs : Nat := 5000

/-- One run of the polling loop of getBurnTransactionInfo, starting at a given
attempt count. `locator` is the Event Locator: `locator k` is what the k-th
findBurnEvent call (0-indexed) returns. The result carries the found event,
the number of locator calls performed, and the total milliseconds slept.
Mirrors the while loop: at most 10 attempts, and a 5-second sleep after a
failed attempt only when another attempt will follow. -/
def burnPollFrom (locator : Nat → Option ChainEvent) (attempts calls sleptMs : Nat) :
    Option ChainEvent × Nat × Nat :=
  if _h : attempts < 10 then
    match locator attempts with
    | some ev => (some ev, calls + 1, sleptMs)
    | none =>
      if attempts + 1 < 10 then
        burnPollFrom locator (attempts + 1) (calls + 1) (sleptMs + burnPollDelayMs)
      else
        burnPollFrom locator (attempts + 1) (calls + 1) sleptMs
  else
    (none, calls, sleptMs)
termination_by 10 - attempts

/-- Burn confirmation info returned by getBurnTransactionInfo. -/
structure BurnInfo where
  txHash : String
  credits : String
  planId : String
deriving DecidableEq

/-- getBurnTransactionInfo polling stage: run the loop from attempt 0 and map
a found event to the burn info triple, or return the explicit null. -/
def getBurnTransactionInfo (planId : String) (locator : Nat → Option ChainEvent) :
    Option BurnInfo × Nat × Nat :=
  let (ev, calls, sleptMs) := burnPollFrom locator 0 0 0
  (ev.map (fun e => { txHash := e.txHash, credits := e.value, planId := planId }), calls, sleptMs)

/-! ## Theorems -/

/-- C1: for every plan whose settlement-token balance of the principal's
wallet is strictly less than the plan price, orderPlanCredits returns
success:false with the insufficient-balance message, and the purchase
primitive payments.plans.orderPlan is never invoked (second component false),
so the operation has no on-chain side effect. -/
theorem orderPlan_insufficient_balance (env : OrderEnv) (a : String)
    (htok : env.tokenAddress = some a) (hwallet : env.wallet ≠ "")
    (hbal : env.walletTokenBalance < env.planPrice) :
    orderPlanCredits env =
      ({ success := false, txHash := none, credits := none,
         message := "Insufficient USDC balance to purchase credits" }, false) := by
  have hw : (env.wallet == "") = false := beq_eq_false_iff_ne.mpr hwallet
  have hb : hasSufficientERC20Balance env.walletTokenBalance env.planPrice = false := by
    simp [hasSufficientERC20Balance]
    omega
  simp [orderPlanCredits, htok, hw, hb]

/-- Witness for C1 at a concrete environment: balance 3 against price 5. -/
theorem orderPlan_insufficient_balance_witness :
    orderPlanCredits
      { tokenAddress := some usdcAddress, wallet := "0xBuyer",
        walletTokenBalance := 3, planPrice := 5,
        purchase := .returned true, mintEvent := none } =
      ({ success := false, txHash := none, credits := none,
         message := "Insufficient USDC balance to purchase credits" }, false) :=
  orderPlan_insufficient_balance _ usdcAddress rfl (by decide) (by decide)

/-- C7: for every inbound message, a failing ledger lookup (or an absent or
empty credential) makes the /api/llm-router handler invoke the router with
credits = 0, and the router invocation is never blocked by a ledger error. -/
theorem route_credits_degrade :
    (∀ (m h : String) (lookup : String → Except String Nat) (e : String),
        startsWithBearer h = true → lookup (jsTrim (String.mk (h.data.drop 7))) = .error e →
        llmRouterRoute (some m) (some h) lookup = .routed 0) ∧
    (∀ (m : String) (lookup : String → Except String Nat),
        llmRouterRoute (some m) none lookup = .routed 0) ∧
    (∀ (m : String) (auth : Option String) (lookup : String → Except String Nat),
        ∃ c, llmRouterRoute (some m) auth lookup = .routed c) := by
  refine ⟨?_, ?_, ?_⟩
  · intro m h lookup e hs hfail
    simp only [llmRouterRoute, resolveCredits, hs, if_true]
    by_cases hk : ((jsTrim (String.mk (h.data.drop 7))) == "") = true
    · simp [hk]
    · simp only [Bool.not_eq_true] at hk
      simp [hk, hfail]
  · intro m lookup
    rfl
  · intro m auth lookup
    exact ⟨resolveCredits auth lookup, rfl⟩

/-- Witness for C7: a failing ledger lookup behind a Bearer credential
resolves to credits 0. -/
theorem route_credits_degrade_witness :
    llmRouterRoute (some "give me the weather") (some ("Bearer sk-123"))
      (fun _ => .error "ledger down") = .routed 0 :=
  route_credits_degrade.1 "give me the weather" ("Bearer sk-123")
    (fun _ => .error "ledger down") "ledger down" (by rfl) (by rfl)

/-- C9: once a PlanDDOHelper instance holds a successfully loaded plan record,
every later operation performs no further remote fetch, leaves the state
unchanged and derives its result from that same record; getTokenId always
returns the plan id; and the first successful load stores the fetched
record. -/
theorem plan_ddo_cache :
    (∀ (fetch : Unit → Option PlanDDO) (st : PlanDDOHelperState) (d : PlanDDO),
      st.ddo = some d →
        PlanDDOHelper.loadDDO fetch st = (st, some d, 0) ∧
        PlanDDOHelper.getTokenAddress fetch st = (st, getTokenAddressOfDDO d, 0) ∧
        PlanDDOHelper.getPlanPrice fetch st = (st, getPlanPriceOfDDO d, 0) ∧
        PlanDDOHelper.getPlanCredits fetch st = (st, getPlanCreditsOfDDO d, 0) ∧
        PlanDDOHelper.get1155ContractAddress fetch st = (st, getNftAddressOfDDO d, 0) ∧
        PlanDDOHelper.getTokenId st = (st, st.planId, 0)) ∧
    (∀ (fetch : Unit → Option PlanDDO) (st : PlanDDOHelperState) (d : PlanDDO),
      st.ddo = none → fetch () = some d →
        PlanDDOHelper.loadDDO fetch st = ({ st with ddo := some d }, some d, 1)) := by
  constructor
  · intro fetch st d h
    refine ⟨?_, ?_, ?_, ?_, ?_, rfl⟩ <;>
      simp [PlanDDOHelper.loadDDO, PlanDDOHelper.getTokenAddress, PlanDDOHelper.getPlanPrice,
        PlanDDOHelper.getPlanCredits, PlanDDOHelper.get1155ContractAddress, h]
  · intro fetch st d h hf
    simp [PlanDDOHelper.loadDDO, h, hf]

/-- Witness for C9 at a concrete cached record. -/
theorem plan_ddo_cache_witness :
    PlanDDOHelper.getPlanPrice (fun _ => none)
      { planId := "did:nv:plan-1",
        ddo := some ⟨some ⟨some ⟨some [5000000], some usdcAddress⟩, some ⟨some 100, some "0xNFT"⟩⟩⟩ } =
      ({ planId := "did:nv:plan-1",
         ddo := some ⟨some ⟨some ⟨some [5000000], some usdcAddress⟩, some ⟨some 100, some "0xNFT"⟩⟩⟩ },
       getPlanPriceOfDDO ⟨some ⟨some ⟨some [5000000], some usdcAddress⟩, some ⟨some 100, some "0xNFT"⟩⟩⟩, 0) :=
  (plan_ddo_cache.1 (fun _ => none) _ _ rfl).2.2.1

/-- C10: when createTask receives a plain string input, it dispatches the
environment-configured default tool — MCP_TOOL when set, else
"weather.today.raw" when RAW is set, else "weather.today" — with arguments
city := input for every non-empty input and no arguments for the empty
string. -/
theorem default_tool_dispatch :
    (∀ (env : McpEnv) (s : String), env.mcpTool = none → envTruthy env.raw = false → s ≠ "" →
        createTaskDispatch env (.text s) = ("weather.today", [("city", .str s)])) ∧
    (∀ env : McpEnv, env.mcpTool = none → envTruthy env.raw = false →
        createTaskDispatch env (.text "") = ("weather.today", [])) ∧
    (∀ (env : McpEnv) (s : String), env.mcpTool = none → envTruthy env.raw = true → s ≠ "" →
        createTaskDispatch env (.text s) = ("weather.today.raw", [("city", .str s)])) ∧
    (∀ env : McpEnv, env.mcpTool = none → envTruthy env.raw = true →
        createTaskDispatch env (.text "") = ("weather.today.raw", [])) ∧
    (∀ (env : McpEnv) (t s : String), env.mcpTool = some t → t ≠ "" → s ≠ "" →
        createTaskDispatch env (.text s) = (t, [("city", .str s)])) := by
  refine ⟨?_, ?_, ?_, ?_, ?_⟩
  · intro env s h1 h2 h3
    simp [createTaskDispatch, h1, h2, beq_eq_false_iff_ne.mpr h3]
  · intro env h1 h2
    simp [createTaskDispatch, h1, h2]
  · intro env s h1 h2 h3
    simp [createTaskDispatch, h1, h2, beq_eq_false_iff_ne.mpr h3]
  · intro env h1 h2
    simp [createTaskDispatch, h1, h2]
  · intro env t s h1 h2 h3
    simp [createTaskDispatch, h1, beq_eq_false_iff_ne.mpr h2, beq_eq_false_iff_ne.mpr h3]

/-- Witness for C10: with no overrides the whole instruction is passed as the
single city argument; with RAW set the raw default tool is used; the empty
input yields no arguments. -/
theorem default_tool_dispatch_witness :
    createTaskDispatch ⟨none, none⟩ (.text "What is the weather in Lima today?") =
      ("weather.today", [("city", .str "What is the weather in Lima today?")]) ∧
    createTaskDispatch ⟨none, some "1"⟩ (.text "Lima") =
      ("weather.today.raw", [("city", .str "Lima")]) ∧
    createTaskDispatch ⟨none, none⟩ (.text "") = ("weather.today", []) :=
  ⟨default_tool_dispatch.1 ⟨none, none⟩ "What is the weather in Lima today?" rfl rfl (by decide),
   default_tool_dispatch.2.2.1 ⟨none, some "1"⟩ "Lima" rfl rfl (by decide),
   default_tool_dispatch.2.1 ⟨none, none⟩ rfl rfl⟩

/-- Unfolding the polling loop when the current attempt hits. -/
lemma burnPollFrom_hit_step (locator : Nat → Option ChainEvent) (a c d : Nat)
    (ha : a < 10) (ev : ChainEvent) (h : locator a = some ev) :
    burnPollFrom locator a c d = (some ev, c + 1, d) := by
  rw [burnPollFrom]
  simp [ha, h]

/-- Unfolding the polling loop when the current attempt misses. -/
lemma burnPollFrom_miss_step (locator : Nat → Option ChainEvent) (a c d : Nat)
    (ha : a < 10) (h : locator a = none) :
    burnPollFrom locator a c d =
      if a + 1 < 10 then burnPollFrom locator (a + 1) (c + 1) (d + burnPollDelayMs)
      else burnPollFrom locator (a + 1) (c + 1) d := by
  rw [burnPollFrom]
  simp [ha, h]

/-- Unfolding the polling loop at attempt 10: the loop exits. -/
lemma burnPollFrom_exit (locator : Nat → Option ChainEvent) (a c d : Nat) (ha : ¬ a < 10) :
    burnPollFrom locator a c d = (none, c, d) := by
  rw [burnPollFrom]
  simp [ha]

/-- Running the loop from attempt `a` when the first hit is at attempt `m`:
exactly m - a + 1 locator calls and m - a sleeps happen. -/
lemma burnPollFrom_first_hit (locator : Nat → Option ChainEvent) (m : Nat) (ev : ChainEvent)
    (hm : m < 10) (hmiss : ∀ j, j < m → locator j = none) (hhit : locator m = some ev) :
    ∀ k a c d, m - a = k → a ≤ m →
      burnPollFrom locator a c d = (some ev, c + (m - a) + 1, d + (m - a) * burnPollDelayMs) := by
  intro k
  induction k with
  | zero =>
    intro a c d hk ha
    have hae : a = m := by omega
    subst hae
    rw [burnPollFrom_hit_step locator a c d (by omega) ev hhit]
    simp [hk]
  | succ k ih =>
    intro a c d hk ha
    have ham : a < m := by omega
    rw [burnPollFrom_miss_step locator a c d (by omega) (hmiss a ham)]
    rw [if_pos (by omega)]
    rw [ih (a + 1) (c + 1) (d + burnPollDelayMs) (by omega) (by omega)]
    have e2 : c + 1 + (m - (a + 1)) + 1 = c + (m - a) + 1 := by omega
    have e3 : d + burnPollDelayMs + (m - (a + 1)) * burnPollDelayMs
        = d + (m - a) * burnPollDelayMs := by
      have hma : m - a = (m - (a + 1)) + 1 := by omega
      rw [hma]
      ring
    rw [e2, e3]

/-- Running the loop from attempt `a` when no attempt ever hits: the loop
performs the remaining 10 - a calls and sleeps after each but the last. -/
lemma burnPollFrom_exhaust (locator : Nat → Option ChainEvent)
    (hmiss : ∀ j, j < 10 → locator j = none) :
    ∀ k a c d, 10 - a = k →
      burnPollFrom locator a c d =
        if a < 10 then (none, c + (10 - a), d + (10 - a - 1) * burnPollDelayMs)
        else (none, c, d) := by
  intro k
  induction k with
  | zero =>
    intro a c d hk
    rw [if_neg (by omega)]
    exact burnPollFrom_exit locator a c d (by omega)
  | succ k ih =>
    intro a c d hk
    have ha : a < 10 := by omega
    rw [if_pos ha]
    rw [burnPollFrom_miss_step locator a c d ha (hmiss a ha)]
    by_cases h1 : a + 1 < 10
    · rw [if_pos h1, ih (a + 1) (c + 1) (d + burnPollDelayMs) (by omega), if_pos h1]
      have e2 : c + 1 + (10 - (a + 1)) = c + (10 - a) := by omega
      have e3 : d + burnPollDelayMs + (10 - (a + 1) - 1) * burnPollDelayMs
          = d + (10 - a - 1) * burnPollDelayMs := by
        have h10 : 10 - a - 1 = (10 - (a + 1) - 1) + 1 := by omega
        rw [h10]
        ring
      rw [e2, e3]
    · rw [if_neg h1, ih (a + 1) (c + 1) d (by omega), if_neg h1]
      have ha9 : a = 9 := by omega
      subst ha9
      norm_num

/-- C2: getBurnTransactionInfo polls the Event Locator at most 10 times with
a fixed 5000 ms delay between consecutive attempts. A first match on the k-th
call (1 ≤ k ≤ 10) is returned after exactly k calls and k - 1 delays; when no
call matches, exactly 10 attempts happen and the explicit not-found result
(none, a terminal value and not an error) is returned after 9 delays. -/
theorem burn_poll_bounded :
    (∀ (locator : Nat → Option ChainEvent) (k : Nat) (ev : ChainEvent) (pid : String),
        1 ≤ k → k ≤ 10 → (∀ j, j < k - 1 → locator j = none) → locator (k - 1) = some ev →
        getBurnTransactionInfo pid locator =
          (some { txHash := ev.txHash, credits := ev.value, planId := pid },
           k, (k - 1) * burnPollDelayMs)) ∧
    (∀ (locator : Nat → Option ChainEvent) (pid : String),
        (∀ j, j < 10 → locator j = none) →
        getBurnTransactionInfo pid locator = (none, 10, 9 * burnPollDelayMs)) := by
  constructor
  · intro locator k ev pid hk1 hk10 hmiss hhit
    have h := burnPollFrom_first_hit locator (k - 1) ev (by omega) hmiss hhit
      (k - 1) 0 0 0 (by omega) (by omega)
    simp only [Nat.sub_zero, Nat.zero_add] at h
    have hk2 : k - 1 + 1 = k := by omega
    rw [hk2] at h
    simp [getBurnTransactionInfo, h]
  · intro locator pid hmiss
    have h := burnPollFrom_exhaust locator hmiss 10 0 0 0 (by omega)
    rw [if_pos (by omega)] at h
    norm_num at h
    simp [getBurnTransactionInfo, h]

/-- Witness for C2: a locator that matches on the 3rd call yields the match
after 3 calls and 2 delays; a locator that never matches yields not-found
after 10 calls and 9 delays. -/
theorem burn_poll_bounded_witness :
    getBurnTransactionInfo ("did:nv:plan-1")
        (fun j => if j < 2 then none else if j = 2 then some ⟨"0xburn", "5"⟩ else none) =
      (some { txHash := "0xburn", credits := "5", planId := "did:nv:plan-1" },
       3, 2 * burnPollDelayMs) ∧
    getBurnTransactionInfo ("did:nv:plan-1") (fun _ => none) = (none, 10, 9 * burnPollDelayMs) :=
  ⟨burn_poll_bounded.1 _ 3 ⟨"0xburn", "5"⟩ "did:nv:plan-1" (by omega) (by omega)
      (fun j hj => by simp [show j < 2 by omega]) (by rfl),
   burn_poll_bounded.2 _ "did:nv:plan-1" (fun j hj => rfl)⟩

/-- Rounding to a double is the identity below 2^53. -/
lemma roundToDouble_eq_of_lt {n : Nat} (h : n < 2 ^ 53) : roundToDouble n = n := by
  unfold roundToDouble
  rw [if_pos h]

/-- The double-precision reduce computes the exact sum of the remaining
components as long as the final total stays below 2^53: every partial result
is then exactly representable and no addition rounds. -/
lemma jsReduce_foldl_eq (l : List Nat) :
    ∀ acc : Nat, acc + l.sum < 2 ^ 53 →
      l.foldl (fun a x => jsAdd a (roundToDouble x)) acc = acc + l.sum := by
  induction l with
  | nil =>
    intro acc h
    simp
  | cons x xs ih =>
    intro acc h
    simp only [List.sum_cons] at h
    have hx : roundToDouble x = x := roundToDouble_eq_of_lt (by omega)
    have ha : jsAdd acc x = acc + x := by
      unfold jsAdd
      exact roundToDouble_eq_of_lt (by omega)
    simp only [List.foldl_cons, hx, ha]
    rw [ih (acc + x) (by omega)]
    simp only [List.sum_cons]
    omega

/-- The source's reduce agrees with the exact component sum below 2^53. -/
lemma jsReduceAmounts_eq_sum (l : List Nat) (h : l.sum < 2 ^ 53) :
    jsReduceAmounts l = l.sum := by
  have hfold := jsReduce_foldl_eq l 0 (by omega)
  simpa [jsReduceAmounts] using hfold

/-- Number::toString prints the exact decimal digits of an integer below
2^53 (exactly representable and far below the 10^21 exponential-notation
threshold). -/
lemma jsNumToString_eq_natRepr {n : Nat} (h : n < 2 ^ 53) : jsNumToString n = natRepr n := by
  have h21 : n < 10 ^ 21 := lt_trans h (by norm_num)
  unfold jsNumToString
  rw [roundToDouble_eq_of_lt h, if_pos h21]

/-- C3 (amended): for a plan descriptor carrying a price section with its
amounts list and whose raw component sum is at most 10^15 — the region where
the source's double-precision reduce, division and printing are exact, which
covers every realistic settlement amount — getPlanCost returns the sum of
all constituent price components: divided by 10^6 and rendered as text when
the settlement token is the designated stablecoin, and as the raw decimal
text otherwise. -/
theorem plan_cost_normalization (ddo : PlanDDO) (reg : PlanRegistry)
    (pr : PlanPriceSection) (amts : List Nat)
    (hreg : ddo.registry = some reg) (hpr : reg.price = some pr)
    (hamts : pr.amounts = some amts) (hbound : amts.sum ≤ 10 ^ 15) :
    (pr.tokenAddress = some usdcAddress →
        getPlanCost ddo = (some (divMillionRepr amts.sum), getPlanCreditsOfDDO ddo)) ∧
    (pr.tokenAddress ≠ some usdcAddress →
        getPlanCost ddo = (some (natRepr amts.sum), getPlanCreditsOfDDO ddo)) := by
  have h53 : amts.sum < 2 ^ 53 := by
    have hlt : (10 : Nat) ^ 15 < 2 ^ 53 := by norm_num
    omega
  have hsum : ddoPriceSum ddo = some amts.sum := by
    simp only [ddoPriceSum, ddoPrice, hreg, hpr, hamts, Option.some_bind, Option.map_some']
    rw [jsReduceAmounts_eq_sum amts h53]
  have htok : (ddoPrice ddo).bind (·.tokenAddress) = pr.tokenAddress := by
    simp [ddoPrice, hreg, hpr]
  constructor
  · intro hu
    simp [getPlanCost, getPlanPriceOfDDO, hsum, htok, hu]
  · intro hu
    have hne : (pr.tokenAddress == some usdcAddress) = false := by
      cases h : pr.tokenAddress with
      | none => rfl
      | some t =>
        have : t ≠ usdcAddress := by
          intro he
          exact hu (by rw [h, he])
        simp [this]
    simp [getPlanCost, getPlanPriceOfDDO, hsum, htok, hne, jsNumToString_eq_natRepr h53]

/-- Witness for C3: a stablecoin-settled plan with raw amount 5000000 costs
"5"; the same raw amount under another settlement token stays "5000000". -/
theorem plan_cost_normalization_witness :
    getPlanCost ⟨some ⟨some ⟨some [5000000], some usdcAddress⟩, some ⟨some 100, some "0xNFT"⟩⟩⟩ =
      (some "5", 100) ∧
    getPlanCost ⟨some ⟨some ⟨some [5000000], some "0xOtherToken"⟩, some ⟨some 100, some "0xNFT"⟩⟩⟩ =
      (some "5000000", 100) := by
  constructor
  · rw [(plan_cost_normalization _ _ _ [5000000] rfl rfl rfl (by norm_num)).1 rfl]
    rfl
  · rw [(plan_cost_normalization _ _ _ [5000000] rfl rfl rfl (by norm_num)).2 (by decide)]
    rfl

/-- C3 counterexample: the claim as stated quantifies over every plan
descriptor, but the source sums the components in JavaScript doubles: for
amounts [2^53, 1] under a non-stablecoin token the reduce rounds
2^53 + 1 to 2^53 (ties to even) and the code returns "9007199254740992",
not the raw integer sum "9007199254740993" the claim requires. -/
theorem plan_cost_normalization_cex :
    getPlanCost ⟨some ⟨some ⟨some [9007199254740992, 1], some "0xOtherToken"⟩,
        some ⟨some 100, some "0xNFT"⟩⟩⟩ = (some "9007199254740992", 100) ∧
    natRepr ([9007199254740992, 1] : List Nat).sum = "9007199254740993" ∧
    ("9007199254740992" : String) ≠ "9007199254740993" := by
  refine ⟨rfl, rfl, by decide⟩

/-- dropWhile skips a leading segment on which the predicate holds. -/
lemma dropWhile_append_of_all {α : Type} (p : α → Bool) (l r : List α)
    (h : ∀ c ∈ l, p c = true) : (l ++ r).dropWhile p = r.dropWhile p := by
  induction l with
  | nil => simp
  | cons a l ih =>
    simp only [List.cons_append, List.dropWhile_cons, h a (List.mem_cons_self a l), if_true]
    exact ih (fun c hc => h c (List.mem_cons_of_mem a hc))

/-- dropWhile stops at a head on which the predicate fails. -/
lemma dropWhile_cons_of_false {α : Type} (p : α → Bool) (a : α) (l : List α)
    (h : p a = false) : (a :: l).dropWhile p = a :: l := by
  simp [List.dropWhile_cons, h]

/-- The greedy brace regex match on prose-wrapped content: when the prefix
carries no left brace and the suffix no right brace, the match is exactly the
middle segment (which starts with a left brace and ends with a right one). -/
lemma regexBraceMatch_embed (pre mid post t1 t2 : List Char)
    (hm1 : mid = lbrace :: t1) (hm2 : mid = t2 ++ [rbrace])
    (hpre : ∀ c ∈ pre, (c == lbrace) = false)
    (hpost : ∀ c ∈ post, (c == rbrace) = false) :
    regexBraceMatch (pre ++ mid ++ post) = some mid := by
  have hpre' : ∀ c ∈ pre, (!(c == lbrace)) = true := by
    intro c hc
    simp [hpre c hc]
  have hpost' : ∀ c ∈ post.reverse, (!(c == rbrace)) = true := by
    intro c hc
    simp [hpost c (List.mem_reverse.mp hc)]
  have ht : (pre ++ mid ++ post).dropWhile (fun c => !(c == lbrace)) = mid ++ post := by
    rw [List.append_assoc, dropWhile_append_of_all _ pre (mid ++ post) hpre']
    rw [hm1, List.cons_append]
    exact dropWhile_cons_of_false _ _ _ (by simp)
  have hu : ((mid ++ post).reverse.dropWhile (fun c => !(c == rbrace))).reverse = mid := by
    rw [List.reverse_append, hm2, List.reverse_append]
    simp only [List.reverse_cons, List.reverse_nil, List.nil_append, List.singleton_append]
    rw [dropWhile_append_of_all _ post.reverse _ hpost']
    rw [dropWhile_cons_of_false _ _ _ (by simp)]
    simp
  simp only [regexBraceMatch, ht, hu]
  rw [hm1]
  rfl

/-- The completion text the spec's no-credit example embeds in prose. -/
def noCreditText : String := "\x7b\"action\":\"no_credit\"\x7d"

/-- The decision object that text parses to. -/
def noCreditJson : Json := .obj [("action", .str "no_credit")]

/-- Brace-freeness of the prose around an embedded JSON object. -/
def braceFreeB (s : String) : Bool :=
  s.data.all (fun c => !(c == lbrace) && !(c == rbrace))

/-- C4 (amended): the Router first attempts a direct JSON parse of the full
response and returns its value on success; on failure it takes the substring
from the first left brace through the last right brace and parses that, so an
embedded no-credit object is extracted whenever the surrounding prose carries
no further braces; and when the direct parse fails and no brace pair exists
the Router fails with the malformed-response error rather than returning a
decision. -/
theorem router_decode_policy :
    (∀ (s : String) (v : Json), Json.parse s = .ok v → llmRouter s = .ok v) ∧
    (∀ pre post : String, braceFreeB pre = true → braceFreeB post = true →
        (Json.parse (pre ++ noCreditText ++ post)).isOk = false →
        llmRouter (pre ++ noCreditText ++ post) = .ok noCreditJson) ∧
    (∀ s : String, (Json.parse s).isOk = false → braceSlice? s = none →
        llmRouter s = .error "LLM did not return valid JSON") := by
  refine ⟨?_, ?_, ?_⟩
  · intro s v h
    simp [llmRouter, h]
  · intro pre post hpre hpost hfail
    have hperr : ∃ e, Json.parse (pre ++ noCreditText ++ post) = .error e := by
      cases hp : Json.parse (pre ++ noCreditText ++ post) with
      | ok v => rw [hp] at hfail; simp [Except.isOk, Except.toBool] at hfail
      | error e => exact ⟨e, rfl⟩
    obtain ⟨e, hperr⟩ := hperr
    have hdata : (pre ++ noCreditText ++ post).data
        = pre.data ++ noCreditText.data ++ post.data := by
      rw [String.data_append, String.data_append]
    have hpre' : ∀ c ∈ pre.data, (c == lbrace) = false := by
      intro c hc
      have := List.all_eq_true.mp hpre c hc
      have h1 : (!(c == lbrace)) = true := by
        cases h2 : (c == lbrace) <;> cases h3 : (c == rbrace) <;>
          simp [h2, h3] at this ⊢
      simpa using h1
    have hpost' : ∀ c ∈ post.data, (c == rbrace) = false := by
      intro c hc
      have := List.all_eq_true.mp hpost c hc
      have h1 : (!(c == rbrace)) = true := by
        cases h2 : (c == lbrace) <;> cases h3 : (c == rbrace) <;>
          simp [h2, h3] at this ⊢
      simpa using h1
    have hslice : braceSlice? (pre ++ noCreditText ++ post) = some noCreditText := by
      simp only [braceSlice?, hdata]
      rw [regexBraceMatch_embed pre.data noCreditText.data post.data
        (noCreditText.data.tail) (noCreditText.data.dropLast) (by rfl) (by rfl) hpre' hpost']
      rfl
    simp only [llmRouter, hperr, hslice]
    rfl
  · intro s hfail hslice
    have hperr : ∃ e, Json.parse s = .error e := by
      cases hp : Json.parse s with
      | ok v => rw [hp] at hfail; simp [Except.isOk, Except.toBool] at hfail
      | error e => exact ⟨e, rfl⟩
    obtain ⟨e, hperr⟩ := hperr
    simp [llmRouter, hperr, hslice]

/-- Witness for C4: the spec's example response extracts the no-credit
decision, and a brace-free response with no JSON at all raises the
malformed-response error. -/
theorem router_decode_policy_witness :
    llmRouter ("Sure! " ++ noCreditText ++ " thanks") = .ok noCreditJson ∧
    llmRouter ("no json here") = .error "LLM did not return valid JSON" :=
  ⟨router_decode_policy.2.1 "Sure! " " thanks" (by rfl) (by rfl) (by rfl),
   router_decode_policy.2.2 "no json here" (by rfl) (by rfl)⟩

/-- C4 counterexample: the claim as stated promises extraction whenever the
no-credit object is embedded anywhere in surrounding prose, but prose carrying
one extra right brace defeats the greedy first-to-last-brace regex — the
extracted slice fails to parse and the Router errors instead of returning a
no-credit decision. -/
theorem router_decode_policy_cex :
    ("Ok \x7b\"action\":\"no_credit\"\x7d done\x7d" : String)
        = "Ok " ++ noCreditText ++ " done\x7d" ∧
    (llmRouter ("Ok \x7b\"action\":\"no_credit\"\x7d done\x7d")).isOk = false := by
  constructor
  · rfl
  · rfl

/-- The fuelled decimal rendering never yields the empty digit list. -/
lemma natReprAux_ne_nil (f n : Nat) : natReprAux (f + 1) n ≠ [] := by
  rw [natReprAux]
  split
  · simp
  · simp

/-- The decimal rendering of a natural number is never the empty string. -/
lemma natRepr_ne_empty (n : Nat) : natRepr n ≠ "" := by
  intro h
  have hd := congrArg String.data h
  exact natReprAux_ne_nil n n hd

/-- JSON.stringify never returns the empty string: every serialized value
starts with at least one character. -/
lemma stringify_ne_empty (v : Json) : Json.stringify v ≠ "" := by
  cases v with
  | null => intro h; simp only [Json.stringify] at h; exact absurd h (by decide)
  | bool b =>
    cases b <;>
      (intro h; simp only [Json.stringify] at h; exact absurd h (by decide))
  | num n =>
    intro h
    simp only [Json.stringify, intRepr] at h
    by_cases hn : n < 0
    · rw [if_pos hn] at h
      have hd := congrArg String.data h
      rw [String.data_append] at hd
      exact absurd hd (by simp)
    · rw [if_neg hn] at h
      exact natRepr_ne_empty n.toNat h
  | str s =>
    intro h
    simp only [Json.stringify, quoteJson] at h
    have hd := congrArg String.data h
    exact absurd hd (by simp)
  | arr xs =>
    intro h
    simp only [Json.stringify] at h
    have hd := congrArg String.data h
    rw [String.data_append] at hd
    exact absurd hd (by simp)
  | obj fs =>
    intro h
    simp only [Json.stringify] at h
    have hd := congrArg String.data h
    rw [String.data_append] at hd
    exact absurd hd (by simp)

/-- C5 (amended): callTool normalization scans the content blocks in order
for the first text-typed block; a non-empty string text field is returned
as-is and a non-string text payload is returned as its JSON serialization
(never empty); when no text block exists — and likewise when the first text
block's text field is absent or the empty string — the output falls back to
the JSON serialization of the entire response. -/
theorem mcp_normalization :
    (∀ (fs : List (String × Json)) (blocks : List Json) (tfs : List (String × Json)) (s : String),
        getField? fs "content" = some (.arr blocks) →
        blocks.find? isTextBlock = some (.obj tfs) →
        getField? tfs "text" = some (.str s) → s ≠ "" →
        mcpOutputText (.obj fs) = s) ∧
    (∀ (fs : List (String × Json)) (blocks : List Json) (tfs : List (String × Json)) (v : Json),
        getField? fs "content" = some (.arr blocks) →
        blocks.find? isTextBlock = some (.obj tfs) →
        getField? tfs "text" = some v → (∀ t : String, v ≠ .str t) →
        mcpOutputText (.obj fs) = Json.stringify v) ∧
    (∀ (fs : List (String × Json)) (blocks : List Json),
        getField? fs "content" = some (.arr blocks) →
        blocks.find? isTextBlock = none →
        mcpOutputText (.obj fs) = Json.stringify (.obj fs)) ∧
    (∀ (fs : List (String × Json)) (blocks : List Json) (tfs : List (String × Json)),
        getField? fs "content" = some (.arr blocks) →
        blocks.find? isTextBlock = some (.obj tfs) →
        getField? tfs "text" = some (.str "") →
        mcpOutputText (.obj fs) = Json.stringify (.obj fs)) := by
  refine ⟨?_, ?_, ?_, ?_⟩
  · intro fs blocks tfs s hc hf ht hs
    simp only [mcpOutputText, hc, hf, ht]
    simp [beq_eq_false_iff_ne.mpr hs]
  · intro fs blocks tfs v hc hf ht hv
    cases v with
    | str t => exact absurd rfl (hv t)
    | null =>
      simp only [mcpOutputText, hc, hf, ht]
      simp [beq_eq_false_iff_ne.mpr (stringify_ne_empty .null)]
    | bool b =>
      simp only [mcpOutputText, hc, hf, ht]
      simp [beq_eq_false_iff_ne.mpr (stringify_ne_empty (.bool b))]
    | num n =>
      simp only [mcpOutputText, hc, hf, ht]
      simp [beq_eq_false_iff_ne.mpr (stringify_ne_empty (.num n))]
    | arr xs =>
      simp only [mcpOutputText, hc, hf, ht]
      simp [beq_eq_false_iff_ne.mpr (stringify_ne_empty (.arr xs))]
    | obj ofs =>
      simp only [mcpOutputText, hc, hf, ht]
      simp [beq_eq_false_iff_ne.mpr (stringify_ne_empty (.obj ofs))]
  · intro fs blocks hc hf
    simp [mcpOutputText, hc, hf]
  · intro fs blocks tfs hc hf ht
    simp [mcpOutputText, hc, hf, ht]

/-- Witness for C5: the spec's own examples — a text block "72F" normalizes
to "72F", and an image-only content array falls back to the serialization of
the whole response. -/
theorem mcp_normalization_witness :
    mcpOutputText (.obj [("content", .arr [.obj [("type", .str "text"), ("text", .str "72F")]])])
      = "72F" ∧
    mcpOutputText (.obj [("content", .arr [.obj [("type", .str "image"), ("data", .str "...")]])])
      = Json.stringify
          (.obj [("content", .arr [.obj [("type", .str "image"), ("data", .str "...")]])]) :=
  ⟨mcp_normalization.1 _ _ [("type", .str "text"), ("text", .str "72F")] "72F"
      rfl rfl rfl (by decide),
   mcp_normalization.2.2.1 _ [.obj [("type", .str "image"), ("data", .str "...")]] rfl rfl⟩

/-- C5 counterexample: a first text block whose text field is the empty
string. The claim as stated requires outputText = "", but the empty string is
falsy in JavaScript, so the code falls back to the serialization of the
entire response instead. -/
theorem mcp_normalization_cex :
    getField? [("type", Json.str "text"), ("text", Json.str "")] "text" = some (.str "") ∧
    mcpOutputText (.obj [("content", .arr [.obj [("type", .str "text"), ("text", .str "")]])])
      ≠ "" ∧
    mcpOutputText (.obj [("content", .arr [.obj [("type", .str "text"), ("text", .str "")]])])
      = Json.stringify
          (.obj [("content", .arr [.obj [("type", .str "text"), ("text", .str "")]])]) := by
  refine ⟨rfl, by decide, rfl⟩

/-- C6: with a tool catalog supplied, a completion output that fails to parse
as JSON, or parses without the required shape, is returned by
llmIntentSynthesizer as the raw text — the silent fall-through — instead of
the explicit invalid-tool-selection error the specification requires. -/
theorem synthesizer_fallthrough :
    (Json.parse ("sunny in Lima")).isOk = false ∧
    llmIntentSynthesizer true ("sunny in Lima") = .text ("sunny in Lima") ∧
    llmIntentSynthesizer true ("\x7b\"tool\":5,\"args\":\x7b\x7d\x7d")
      = .text ("\x7b\"tool\":5,\"args\":\x7b\x7d\x7d") := by
  refine ⟨rfl, rfl, rfl⟩

/-- C8 (amended): a transport failure propagates out of callMcpTool as a
distinct error, but createTask catches it and returns the sentinel result
with output "Error creating task", and listMcpTools catches it and returns
the empty array — both of the same shape as a normal result. -/
theorem gateway_error_conflation :
    (∀ e : String, createTask (.error e) = { output := "Error creating task" }) ∧
    (∀ e : String, listMcpTools (.error e) = .arr []) ∧
    (∀ e : String, callMcpTool (.error e) = .error e) :=
  ⟨fun _ => rfl, fun _ => rfl, fun _ => rfl⟩

/-- C8 counterexample: a connection failure and a normal tool result are
indistinguishable to the caller — createTask maps a transport error and a
successful call whose tool emitted "Error creating task" to the same value,
and listMcpTools maps a transport error and an empty catalog to the same
value, so neither surfaces a distinct upstream-provider error. -/
theorem gateway_error_conflation_cex :
    createTask (.error "fetch failed: ECONNREFUSED") =
      createTask (.ok (.obj [("content",
        .arr [.obj [("type", .str "text"), ("text", .str "Error creating task")]])])) ∧
    listMcpTools (.error "fetch failed: ECONNREFUSED") = listMcpTools (.ok (.arr [])) := by
  constructor
  · rfl
  · rfl

/-- Witness for C8 at a concrete transport error. -/
theorem gateway_error_conflation_witness :
    createTask (.error "ECONNREFUSED") = { output := "Error creating task" } ∧
    listMcpTools (.error "ECONNREFUSED") = .arr [] ∧
    callMcpTool (.error "ECONNREFUSED") = .error "ECONNREFUSED" :=
  ⟨gateway_error_conflation.1 "ECONNREFUSED",
   gateway_error_conflation.2.1 "ECONNREFUSED",
   gateway_error_conflation.2.2 "ECONNREFUSED"⟩
